import Mathlib

/-
Verification of the explorer451 object-storage explorer backend.

The development shallowly embeds the service layer (core/s3 service: listing
translation, folder creation, delete-by-prefix batching, presign defaults,
content-type detection) and the HTTP error mapping helpers of
internal/api/handlers_s3.go. Object keys are lists of characters; provider
calls are modelled by passing the provider response (or the provider's
behaviour on one batch) as an explicit argument; the store mutated by put and
delete calls is modelled by explicit state passing.
-/

namespace Explorer451

/-- Object keys (Go strings) are modelled as lists of characters. -/
abbrev Key := List Char

/-- The single-character delimiter and folder-marker suffix used by the code. -/
def slash : Key := ['/']

def emptyStr : String := ""

def mimeTextPlain : String := "text/plain"

def mimeTextHtml : String := "text/html"

def mimeTextCss : String := "text/css"

def mimeAppJs : String := "application/javascript"

def mimeAppJson : String := "application/json"

def mimeImageJpeg : String := "image/jpeg"

def mimeImagePng : String := "image/png"

def mimeImageGif : String := "image/gif"

def mimeAppPdf : String := "application/pdf"

def mimeOctetStream : String := "application/octet-stream"

def extTxt : Key := ".txt".toList

def extHtml : Key := ".html".toList

def extHtm : Key := ".htm".toList

def extCss : Key := ".css".toList

def extJs : Key := ".js".toList

def extJson : Key := ".json".toList

def extJpg : Key := ".jpg".toList

def extJpeg : Key := ".jpeg".toList

def extPng : Key := ".png".toList

def extGif : Key := ".gif".toList

def extPdf : Key := ".pdf".toList

/-- The extensions that appear in the switch of detectContentType. -/
def knownExts : List Key :=
  [extTxt, extHtml, extHtm, extCss, extJs, extJson, extJpg, extJpeg, extPng, extGif, extPdf]

/-- Scan of the reversed file name used by fileExt: it walks characters from
the end of the name, stops with no extension at a path separator or at the
start, and returns the dot together with the characters walked so far when it
reaches a dot (Go filepath.Ext). -/
def extAux (acc : List Char) : List Char → List Char
  | [] => []
  | c :: cs => if c = '/' then [] else if c = '.' then c :: acc else extAux (c :: acc) cs

/-- Go filepath.Ext: the suffix of the final slash-separated element of the
name beginning at its final dot; empty when there is no dot. -/
def fileExt (name : Key) : Key := extAux [] name.reverse

/-- detectContentType from the service: lower-case the extension of the file
name and look it up in a fixed table, defaulting to the generic octet-stream
type. -/
def detectContentType (filename : Key) : String :=
  let ext := (fileExt filename).map Char.toLower
  if ext = extTxt then mimeTextPlain
  else if ext = extHtml ∨ ext = extHtm then mimeTextHtml
  else if ext = extCss then mimeTextCss
  else if ext = extJs then mimeAppJs
  else if ext = extJson then mimeAppJson
  else if ext = extJpg ∨ ext = extJpeg then mimeImageJpeg
  else if ext = extPng then mimeImagePng
  else if ext = extGif then mimeImageGif
  else if ext = extPdf then mimeAppPdf
  else mimeOctetStream

/-- One object of the provider's ListObjectsV2 Contents array (the fields the
service reads). Timestamps are modelled as naturals. -/
structure S3Content where
  key : Key
  size : Int
  lastModified : Nat
  storageClass : String
  etag : String
deriving DecidableEq

/-- One provider response page: Contents, delimiter-grouped CommonPrefixes and
the truncation flag. -/
structure ProviderPage where
  contents : List S3Content
  commonPrefixes : List Key
  isTruncated : Bool
deriving DecidableEq

/-- models.ObjectInfo: the unified listing entry assembled by ListObjects. -/
structure ObjectInfo where
  key : Key
  size : Int
  isFolder : Bool
  type : String
  contentType : String
  lastModified : Nat
  storageClass : String
  etag : String
deriving DecidableEq

def typeFolder : String := "folder"

def typeFile : String := "file"

/-- The entry ListObjects emits for one CommonPrefixes element: a folder of
size zero; the remaining fields keep their zero values. -/
def folderEntry (p : Key) : ObjectInfo :=
  { key := p, size := 0, isFolder := true, type := typeFolder,
    contentType := emptyStr, lastModified := 0, storageClass := emptyStr, etag := emptyStr }

/-- The entry ListObjects emits for one Contents element: a file whose content
type is inferred from the extension unless the key ends with a slash. -/
def fileEntry (c : S3Content) : ObjectInfo :=
  { key := c.key, size := c.size, isFolder := false, type := typeFile,
    contentType := if slash.isSuffixOf c.key then emptyStr else detectContentType c.key,
    lastModified := c.lastModified, storageClass := c.storageClass, etag := c.etag }

/-- The Contents loop of ListObjects: skip the current directory marker (a key
equal to the requested listing position), emit a file entry for every other
content object. -/
def processContents (pre : Key) (contents : List S3Content) : List ObjectInfo :=
  contents.filterMap (fun c => if c.key = pre then none else some (fileEntry c))

/-- The body of ListObjects after the provider call: folder entries for the
common prefixes first, then the file entries. -/
def processPage (pre : Key) (page : ProviderPage) : List ObjectInfo :=
  page.commonPrefixes.map folderEntry ++ processContents pre page.contents

/-- The maxKeys adjustment in ListObjects: non-positive or oversized values
are replaced by the provider maximum 1000. -/
def clampMaxKeys (maxKeys : Int) : Int :=
  if maxKeys ≤ 0 ∨ 1000 < maxKeys then 1000 else maxKeys

/-- The delimiter adjustment in ListObjects: an empty delimiter becomes the
slash used for folder-like navigation. -/
def effectiveDelimiter (delim : Key) : Key :=
  if delim = [] then slash else delim

/-- models.ListObjectsResponse (itemsInPage is the count of emitted entries). -/
structure ListObjectsResponse where
  objects : List ObjectInfo
  isTruncated : Bool
  itemsInPage : Nat
  pageSize : Int
deriving DecidableEq

/-- S3Service.ListObjects given the page the provider returned for the request
built from pre, the effective delimiter and the clamped maxKeys. -/
def listObjectsResult (pre : Key) (delim : Key) (maxKeys : Int) (page : ProviderPage) :
    ListObjectsResponse :=
  let objs := processPage pre page
  { objects := objs, isTruncated := page.isTruncated,
    itemsInPage := objs.length, pageSize := clampMaxKeys maxKeys }

/-- Modelled from the provider's documented delimiter grouping: the part of
rest up to and including the first occurrence of delim, when delim occurs in
rest. -/
def splitAtDelim (delim : List Char) : List Char → Option (List Char)
  | [] => none
  | c :: cs =>
    if delim.isPrefixOf (c :: cs) then some delim
    else (splitAtDelim delim cs).map (fun t => c :: t)

/-- Modelled from the provider's documented delimiter grouping: the common
prefix a key is grouped under, when the key extends pre and the remainder
contains delim. -/
def commonPrefixOf (pre delim key : Key) : Option Key :=
  if pre.isPrefixOf key then (splitAtDelim delim (key.drop pre.length)).map (fun t => pre ++ t)
  else none

/-- A provider page is valid for a request when each of its common prefixes is
the delimiter group of some key. -/
def ValidCommonPrefixes (pre delim : Key) (page : ProviderPage) : Prop :=
  ∀ p ∈ page.commonPrefixes, ∃ k, commonPrefixOf pre delim k = some p

/-- The provider's batch-size ceiling used by DeleteObjectsByPrefix. -/
def batchSize : Nat := 1000

/-- Fuel-indexed form of the chunking loop of DeleteObjectsByPrefix (the loop
advances its index by batchSize and takes the slice up to the end of the
list); the fuel only bounds the recursion and one unit is spent per chunk. -/
def chunksAux : Nat → List Key → List (List Key)
  | 0, _ => []
  | _ + 1, [] => []
  | fuel + 1, a :: l => (a :: l).take batchSize :: chunksAux fuel ((a :: l).drop batchSize)

/-- The slices of at most batchSize keys that DeleteObjectsByPrefix deletes,
in order. -/
def deleteChunks (l : List Key) : List (List Key) := chunksAux l.length l

/-- The listing phase of DeleteObjectsByPrefix: the paginator loop gathers
the keys of every object whose key extends the requested position. -/
def listedKeys (store : List Key) (pre : Key) : List Key :=
  store.filter (fun k => pre.isPrefixOf k)

/-- The effect of one successful provider DeleteObjects call on the bucket
contents: the keys of the batch are removed. -/
def removeKeys (store : List Key) (chunk : List Key) : List Key :=
  store.filter (fun k => !(chunk.contains k))

/-- Outcome of the delete loop: the final bucket contents, the batch calls
issued in order, and the error returned, if any. -/
structure DeleteRun where
  store : List Key
  calls : List (List Key)
  err : Option Nat
deriving DecidableEq

/-- The delete loop of DeleteObjectsByPrefix: issue one DeleteObjects call per
chunk; a chunk on which the provider fails (failOn gives an error) stops the
loop at once and its error is returned; a successful chunk removes its keys
from the store. -/
def execBatches (failOn : List Key → Option Nat) : List Key → List (List Key) → DeleteRun
  | store, [] => { store := store, calls := [], err := none }
  | store, c :: cs =>
    match failOn c with
    | some e => { store := store, calls := [c], err := some e }
    | none =>
      let r := execBatches failOn (removeKeys store c) cs
      { store := r.store, calls := c :: r.calls, err := r.err }

/-- S3Service.DeleteObjectsByPrefix over an explicit bucket state: list every
key under the requested position, chunk at the provider ceiling, run the
delete loop. An empty listing issues no calls. -/
def deleteObjectsByPrefixRun (failOn : List Key → Option Nat) (store : List Key) (pre : Key) :
    DeleteRun :=
  execBatches failOn store (deleteChunks (listedKeys store pre))

/-- A bucket as a map from keys to stored bodies. -/
abbrev Store := Key → Option String

/-- A provider PutObject call: overwrite semantics at the given key. -/
def putObject (store : Store) (k : Key) (body : String) : Store :=
  fun q => if q = k then some body else store q

/-- The key normalization of CreateFolder: append a slash unless the key
already ends with one. -/
def normalizeFolderKey (k : Key) : Key :=
  if slash.isSuffixOf k then k else k ++ slash

/-- S3Service.CreateFolder over an explicit bucket state: normalize the key
and put a zero-byte marker object there. -/
def createFolder (store : Store) (k : Key) : Store :=
  putObject store (normalizeFolderKey k) emptyStr

/-- The expiry adjustment of S3Service.GetPresignedURL, in seconds: a
non-positive requested expiry becomes 15 minutes. -/
def getPresignedURLExpiry (expiresIn : Int) : Int :=
  if expiresIn ≤ 0 then 15 * 60 else expiresIn

def contentTypeField : String := "$Content-Type"

/-- One policy condition appended by GeneratePresignedPostURL. -/
inductive PostCondition where
  | eqCond (field value : String)
  | contentLengthRange (lo hi : Int)
deriving DecidableEq

/-- The observable part of a presigned POST policy: its expiry in seconds and
the conditions added to it. -/
structure PostPolicy where
  expires : Int
  conditions : List PostCondition
deriving DecidableEq

/-- S3Service.GeneratePresignedPostURL: default the expiry to 15 minutes and
the size ceiling to 10 MiB when non-positive, then add exactly one equality
condition on the content type and one content-length-range condition. -/
def generatePresignedPostURL (contentType : String) (expiresIn maxSize : Int) : PostPolicy :=
  { expires := if expiresIn ≤ 0 then 15 * 60 else expiresIn,
    conditions :=
      [PostCondition.eqCond contentTypeField contentType,
       PostCondition.contentLengthRange 0 (if maxSize ≤ 0 then 10 * 1024 * 1024 else maxSize)] }

/-- An error surfaced by the service layer: either a provider API error
carrying a code, or any other failure. -/
inductive AwsErr where
  | api (code : String)
  | generic
deriving DecidableEq

def noSuchBucketCode : String := "NoSuchBucket"

def accessDeniedCode : String := "AccessDenied"

def noSuchKeyCode : String := "NoSuchKey"

/-- isNoSuchBucketError of handlers_s3.go. -/
def isNoSuchBucketError : AwsErr → Bool
  | AwsErr.api c => c == noSuchBucketCode
  | AwsErr.generic => false

/-- isAccessDeniedError of handlers_s3.go. -/
def isAccessDeniedError : AwsErr → Bool
  | AwsErr.api c => c == accessDeniedCode
  | AwsErr.generic => false

/-- isNoSuchKeyError of handlers_s3.go. -/
def isNoSuchKeyError : AwsErr → Bool
  | AwsErr.api c => c == noSuchKeyCode
  | AwsErr.generic => false

def msgBucketNotFound : String := "Bucket not found"

def msgObjectNotFound : String := "Object not found"

def msgAccessDenied : String := "Access denied"

def msgFailedListBuckets : String := "Failed to list buckets"

def msgFailedListObjects : String := "Failed to list objects"

def msgFailedPresign : String := "Failed to generate presigned URL"

def msgFailedDeleteFolder : String := "Failed to delete folder"

def msgFailedDeleteObject : String := "Failed to delete object"

def msgFailedCreateFolder : String := "Failed to create folder"

def msgFailedPresignPost : String := "Failed to generate presigned POST URL"

/-- HTTP status and message of the listBuckets handler on a service error. -/
def listBucketsError (e : AwsErr) : Nat × String :=
  match e with
  | _ => (500, msgFailedListBuckets)

/-- HTTP status and message of the listObjects handler on a service error. -/
def listObjectsError (e : AwsErr) : Nat × String :=
  if isNoSuchBucketError e then (404, msgBucketNotFound)
  else if isAccessDeniedError e then (403, msgAccessDenied)
  else (500, msgFailedListObjects)

/-- HTTP status and message of the getPresignedURL handler on a service error. -/
def getPresignedURLError (e : AwsErr) : Nat × String :=
  if isNoSuchBucketError e then (404, msgBucketNotFound)
  else if isNoSuchKeyError e then (404, msgObjectNotFound)
  else if isAccessDeniedError e then (403, msgAccessDenied)
  else (500, msgFailedPresign)

/-- HTTP status and message of the deleteObject handler in its recursive
branch on a service error. -/
def deleteObjectRecursiveError (e : AwsErr) : Nat × String :=
  if isNoSuchBucketError e then (404, msgBucketNotFound)
  else if isAccessDeniedError e then (403, msgAccessDenied)
  else (500, msgFailedDeleteFolder)

/-- HTTP status and message of the deleteObject handler in its single-object
branch on a service error. -/
def deleteObjectSingleError (e : AwsErr) : Nat × String :=
  if isNoSuchBucketError e then (404, msgBucketNotFound)
  else if isNoSuchKeyError e then (404, msgObjectNotFound)
  else if isAccessDeniedError e then (403, msgAccessDenied)
  else (500, msgFailedDeleteObject)

/-- HTTP status and message of the createFolder handler on a service error. -/
def createFolderError (e : AwsErr) : Nat × String :=
  if isNoSuchBucketError e then (404, msgBucketNotFound)
  else if isAccessDeniedError e then (403, msgAccessDenied)
  else (500, msgFailedCreateFolder)

/-- HTTP status and message of the generatePresignedPostURL handler on a
service error. -/
def generatePresignedPostURLError (e : AwsErr) : Nat × String :=
  if isNoSuchBucketError e then (404, msgBucketNotFound)
  else if isAccessDeniedError e then (403, msgAccessDenied)
  else (500, msgFailedPresignPost)

/-- The per-handler error mappings of handlers_s3.go, one entry per handler
that can receive a service-layer error. -/
def handlerErrors : List (AwsErr → Nat × String) :=
  [listBucketsError, listObjectsError, getPresignedURLError, deleteObjectRecursiveError,
   deleteObjectSingleError, createFolderError, generatePresignedPostURLError]

/-- C1: for every ListObjects call the effective page size (the clamped
maxKeys used for the provider request and reported back as pageSize) lies in
the interval from 1 to 1000; a zero, negative or oversized input becomes 1000
and an input between 1 and 1000 is used unchanged. -/
theorem listObjects_maxKeys_clamped (pre delim : Key) (maxKeys : Int) (page : ProviderPage) :
    (listObjectsResult pre delim maxKeys page).pageSize = clampMaxKeys maxKeys ∧
    (0 < clampMaxKeys maxKeys ∧ clampMaxKeys maxKeys ≤ 1000) ∧
    ((maxKeys ≤ 0 ∨ 1000 < maxKeys) → clampMaxKeys maxKeys = 1000) ∧
    (0 < maxKeys ∧ maxKeys ≤ 1000 → clampMaxKeys maxKeys = maxKeys) := by
  refine ⟨rfl, ?_, ?_, ?_⟩ <;> unfold clampMaxKeys <;> split <;> omega

/-- C6: CreateFolder normalizes its key to end with the delimiter, is
idempotent (a second call with the same key leaves the store unchanged), puts
the zero-byte marker at the normalized key, and touches no other key. -/
theorem createFolder_normalized_idempotent (store : Store) (k : Key) :
    slash.isSuffixOf (normalizeFolderKey k) = true ∧
    createFolder (createFolder store k) k = createFolder store k ∧
    createFolder store k (normalizeFolderKey k) = some emptyStr ∧
    ∀ q, q ≠ normalizeFolderKey k → createFolder store k q = store q := by
  refine ⟨?_, ?_, ?_, ?_⟩
  · unfold normalizeFolderKey
    split
    · assumption
    · rw [List.isSuffixOf_iff_suffix]
      exact List.suffix_append k slash
  · funext q
    unfold createFolder putObject
    by_cases h : q = normalizeFolderKey k <;> simp [h]
  · unfold createFolder putObject
    simp
  · intro q hq
    unfold createFolder putObject
    simp [hq]

/-- C7: GetPresignedURL treats any non-positive requested expiry like the
default: the effective expiry equals the one obtained for 900 and is 900
seconds. -/
theorem getPresignedURL_default_expiry (e : Int) (h : e ≤ 0) :
    getPresignedURLExpiry e = getPresignedURLExpiry 900 ∧ getPresignedURLExpiry e = 900 := by
  unfold getPresignedURLExpiry
  norm_num [h]

/-- Witness for C7 at a requested expiry of zero. -/
theorem getPresignedURL_default_expiry_witness :
    (0 : Int) ≤ 0 ∧
    (getPresignedURLExpiry 0 = getPresignedURLExpiry 900 ∧ getPresignedURLExpiry 0 = 900) :=
  ⟨le_refl 0, getPresignedURL_default_expiry 0 (le_refl 0)⟩

/-- C8: GeneratePresignedPostURL defaults a non-positive expiry to 15 minutes
(900 seconds) and a non-positive size ceiling to 10 MiB, and always adds
exactly two conditions: a content-type equality for the requested type and
the content-length range from 0 up to the effective ceiling. -/
theorem generatePresignedPost_policy (ct : String) (e m : Int) :
    (generatePresignedPostURL ct e m).conditions.length = 2 ∧
    (generatePresignedPostURL ct e m).conditions =
      [PostCondition.eqCond contentTypeField ct,
       PostCondition.contentLengthRange 0 (if m ≤ 0 then 10485760 else m)] ∧
    (e ≤ 0 → (generatePresignedPostURL ct e m).expires = 900) ∧
    (m ≤ 0 → (generatePresignedPostURL ct e m).conditions =
      [PostCondition.eqCond contentTypeField ct,
       PostCondition.contentLengthRange 0 10485760]) := by
  unfold generatePresignedPostURL
  refine ⟨rfl, by norm_num, fun h => by simp [h], fun h => by simp [h]⟩

/-- C9: detectContentType maps a.txt to text/plain, considers only the last
extension so a.tar.gz maps to the generic octet-stream type, maps a name
without an extension to octet-stream, and maps every extension outside the
fixed table to octet-stream. -/
theorem detectContentType_table (name : Key)
    (h : (fileExt name).map Char.toLower ∉ knownExts) :
    detectContentType name = mimeOctetStream ∧
    detectContentType ("a.txt".toList) = mimeTextPlain ∧
    detectContentType ("a.tar.gz".toList) = mimeOctetStream ∧
    detectContentType ("noext".toList) = mimeOctetStream := by
  refine ⟨?_, by decide, by decide, by decide⟩
  unfold detectContentType
  simp only [knownExts, List.mem_cons, List.mem_singleton, not_or] at h
  obtain ⟨h1, h2, h3, h4, h5, h6, h7, h8, h9, h10, h11⟩ := h
  simp [h1, h2, h3, h4, h5, h6, h7, h8, h9, h10, h11]

/-- Witness for C9 at a name whose last extension is outside the table. -/
theorem detectContentType_table_witness :
    (fileExt ("x.gz".toList)).map Char.toLower ∉ knownExts ∧
    (detectContentType ("x.gz".toList) = mimeOctetStream ∧
     detectContentType ("a.txt".toList) = mimeTextPlain ∧
     detectContentType ("a.tar.gz".toList) = mimeOctetStream ∧
     detectContentType ("noext".toList) = mimeOctetStream) :=
  ⟨by decide, detectContentType_table ("x.gz".toList) (by decide)⟩

/-- C5 counterexample: the listObjects handler maps a provider NoSuchKey
error to 500, not 404, so the claimed mapping does not hold for every handler
and every service error. -/
theorem errorMapping_counterexample :
    ¬ (∀ f ∈ handlerErrors, ∀ e : AwsErr, isNoSuchKeyError e = true → (f e).1 = 404) := by
  intro h
  have hm : listObjectsError ∈ handlerErrors := by
    unfold handlerErrors
    exact List.mem_cons_of_mem _ (List.mem_cons_self _ _)
  have hval := h listObjectsError hm (AwsErr.api noSuchKeyCode) (by decide)
  have h500 : (listObjectsError (AwsErr.api noSuchKeyCode)).1 = 500 := by decide
  rw [h500] at hval
  exact absurd hval (by decide)

/-- C5 amended: the handler error mappings as implemented. Every object-level
handler maps a NoSuchBucket error to 404 and an AccessDenied error to 403; a
NoSuchKey error maps to 404 exactly in the two handlers that test for it (the
presigned GET handler and the single-object delete branch), while the
handlers that do not test it (listObjects, the recursive delete branch,
createFolder and the presigned POST handler) map it to 500 and not to 404;
any other service error maps to 500 with a fixed generic message that
carries no provider detail; the listBuckets handler maps every error to
500. -/
theorem handlerError_mapping (e : AwsErr) :
    ((listBucketsError e).1 = 500 ∧ (listBucketsError e).2 = msgFailedListBuckets) ∧
    (isNoSuchBucketError e = true →
      (listObjectsError e).1 = 404 ∧ (getPresignedURLError e).1 = 404 ∧
      (deleteObjectRecursiveError e).1 = 404 ∧ (deleteObjectSingleError e).1 = 404 ∧
      (createFolderError e).1 = 404 ∧ (generatePresignedPostURLError e).1 = 404) ∧
    (isNoSuchKeyError e = true →
      (getPresignedURLError e).1 = 404 ∧ (deleteObjectSingleError e).1 = 404 ∧
      (listObjectsError e).1 = 500 ∧ (deleteObjectRecursiveError e).1 = 500 ∧
      (createFolderError e).1 = 500 ∧ (generatePresignedPostURLError e).1 = 500) ∧
    (isAccessDeniedError e = true →
      (listObjectsError e).1 = 403 ∧ (getPresignedURLError e).1 = 403 ∧
      (deleteObjectRecursiveError e).1 = 403 ∧ (deleteObjectSingleError e).1 = 403 ∧
      (createFolderError e).1 = 403 ∧ (generatePresignedPostURLError e).1 = 403) ∧
    (isNoSuchBucketError e = false → isNoSuchKeyError e = false →
      isAccessDeniedError e = false →
      (listObjectsError e).1 = 500 ∧ (listObjectsError e).2 = msgFailedListObjects ∧
      (getPresignedURLError e).1 = 500 ∧ (getPresignedURLError e).2 = msgFailedPresign ∧
      (deleteObjectRecursiveError e).1 = 500 ∧
      (deleteObjectRecursiveError e).2 = msgFailedDeleteFolder ∧
      (deleteObjectSingleError e).1 = 500 ∧
      (deleteObjectSingleError e).2 = msgFailedDeleteObject ∧
      (createFolderError e).1 = 500 ∧ (createFolderError e).2 = msgFailedCreateFolder ∧
      (generatePresignedPostURLError e).1 = 500 ∧
      (generatePresignedPostURLError e).2 = msgFailedPresignPost) := by
  cases e with
  | generic =>
    refine ⟨⟨rfl, rfl⟩, fun h => absurd h (by decide), fun h => absurd h (by decide),
      fun h => absurd h (by decide), fun _ _ _ => ?_⟩
    exact ⟨by decide, by decide, by decide, by decide, by decide, by decide, by decide,
      by decide, by decide, by decide, by decide, by decide⟩
  | api c =>
    by_cases hb : c = noSuchBucketCode
    · subst hb
      refine ⟨⟨rfl, rfl⟩, fun _ => ?_, fun h => absurd h (by decide),
        fun h => absurd h (by decide), fun h1 _ _ => absurd h1 (by decide)⟩
      exact ⟨by decide, by decide, by decide, by decide, by decide, by decide⟩
    · by_cases hk : c = noSuchKeyCode
      · subst hk
        refine ⟨⟨rfl, rfl⟩, fun h => absurd h (by decide), fun _ => ?_,
          fun h => absurd h (by decide), fun _ h2 _ => absurd h2 (by decide)⟩
        exact ⟨by decide, by decide, by decide, by decide, by decide, by decide⟩
      · by_cases ha : c = accessDeniedCode
        · subst ha
          refine ⟨⟨rfl, rfl⟩, fun h => absurd h (by decide), fun h => absurd h (by decide),
            fun _ => ?_, fun _ _ h3 => absurd h3 (by decide)⟩
          exact ⟨by decide, by decide, by decide, by decide, by decide, by decide⟩
        · have hb' : isNoSuchBucketError (AwsErr.api c) = false := by
            simp [isNoSuchBucketError, hb]
          have hk' : isNoSuchKeyError (AwsErr.api c) = false := by
            simp [isNoSuchKeyError, hk]
          have ha' : isAccessDeniedError (AwsErr.api c) = false := by
            simp [isAccessDeniedError, ha]
          refine ⟨⟨rfl, rfl⟩, ?_, ?_, ?_, ?_⟩
          · intro hcon; rw [hb'] at hcon; exact absurd hcon (by decide)
          · intro hcon; rw [hk'] at hcon; exact absurd hcon (by decide)
          · intro hcon; rw [ha'] at hcon; exact absurd hcon (by decide)
          · intro _ _ _
            simp [listObjectsError, getPresignedURLError, deleteObjectRecursiveError,
              deleteObjectSingleError, createFolderError, generatePresignedPostURLError,
              hb', hk', ha']

/-- The part of a remainder up to the first delimiter occurrence ends with
the delimiter. -/
theorem splitAtDelim_suffix (delim : List Char) :
    ∀ rest p, splitAtDelim delim rest = some p → delim <:+ p := by
  intro rest
  induction rest with
  | nil => intro p h; simp [splitAtDelim] at h
  | cons c cs ih =>
    intro p h
    unfold splitAtDelim at h
    split at h
    · injection h with h'
      subst h'
      exact List.suffix_refl delim
    · rw [Option.map_eq_some'] at h
      obtain ⟨q, hq, rfl⟩ := h
      exact (ih q hq).trans (List.suffix_cons c q)

/-- A common prefix produced by delimiter grouping ends with the delimiter. -/
theorem commonPrefixOf_suffix (pre delim key p : Key)
    (h : commonPrefixOf pre delim key = some p) : delim <:+ p := by
  unfold commonPrefixOf at h
  split at h
  · rw [Option.map_eq_some'] at h
    obtain ⟨q, hq, rfl⟩ := h
    exact (splitAtDelim_suffix delim _ q hq).trans (List.suffix_append pre q)
  · simp at h

/-- C2: every folder entry emitted by ListObjects has a key ending with the
effective delimiter, and no emitted file entry's key equals the supplied
listing position (the self marker is skipped), for any page whose common
prefixes come from the provider's delimiter grouping. -/
theorem listObjects_entry_invariants (pre delim : Key) (maxKeys : Int) (page : ProviderPage)
    (o : ObjectInfo) (hv : ValidCommonPrefixes pre (effectiveDelimiter delim) page)
    (ho : o ∈ (listObjectsResult pre delim maxKeys page).objects) :
    (o.isFolder = true → effectiveDelimiter delim <:+ o.key) ∧
    (o.isFolder = false → o.key ≠ pre) := by
  have ho' : o ∈ processPage pre page := ho
  rw [processPage, List.mem_append] at ho'
  rcases ho' with hf | hc
  · rw [List.mem_map] at hf
    obtain ⟨p, hp, rfl⟩ := hf
    obtain ⟨k, hk⟩ := hv p hp
    refine ⟨fun _ => commonPrefixOf_suffix pre _ k p hk, fun hfalse => ?_⟩
    simp [folderEntry] at hfalse
  · rw [processContents, List.mem_filterMap] at hc
    obtain ⟨c, hcmem, hcs⟩ := hc
    by_cases hkey : c.key = pre
    · rw [if_pos hkey] at hcs
      exact absurd hcs (by simp)
    · rw [if_neg hkey] at hcs
      injection hcs with h'
      subst h'
      refine ⟨fun htrue => ?_, fun _ => hkey⟩
      simp [fileEntry] at htrue

def w2page : ProviderPage :=
  { contents := [], commonPrefixes := ["a/b/".toList], isTruncated := false }

/-- Witness for C2 on a concrete valid page. -/
theorem listObjects_entry_invariants_witness :
    ValidCommonPrefixes ("a/".toList) (effectiveDelimiter []) w2page ∧
    folderEntry ("a/b/".toList) ∈
      (listObjectsResult ("a/".toList) [] 1000 w2page).objects ∧
    ((folderEntry ("a/b/".toList)).isFolder = true →
      effectiveDelimiter [] <:+ (folderEntry ("a/b/".toList)).key) ∧
    ((folderEntry ("a/b/".toList)).isFolder = false →
      (folderEntry ("a/b/".toList)).key ≠ ("a/".toList)) := by
  have hv : ValidCommonPrefixes ("a/".toList) (effectiveDelimiter []) w2page := by
    intro p hp
    simp only [w2page, List.mem_singleton] at hp
    subst hp
    exact ⟨"a/b/x".toList, by decide⟩
  have hmem : folderEntry ("a/b/".toList) ∈
      (listObjectsResult ("a/".toList) [] 1000 w2page).objects := by decide
  have hmain := listObjects_entry_invariants ("a/".toList) [] 1000 w2page
    (folderEntry ("a/b/".toList)) hv hmem
  exact ⟨hv, hmem, hmain.1, hmain.2⟩

/-- C10: a content key that ends with the delimiter but differs from the
requested listing position is emitted by ListObjects as a file entry (not a
folder entry) whose type is file, whose size is the provider size, and whose
content type is empty because extension inference is skipped for keys ending
in a slash. -/
theorem listObjects_marker_as_file (pre delim : Key) (maxKeys : Int) (page : ProviderPage)
    (c : S3Content) (hc : c ∈ page.contents) (hne : c.key ≠ pre)
    (hslash : slash.isSuffixOf c.key = true) :
    fileEntry c ∈ (listObjectsResult pre delim maxKeys page).objects ∧
    (fileEntry c).isFolder = false ∧
    (fileEntry c).type = typeFile ∧
    (fileEntry c).size = c.size ∧
    (fileEntry c).contentType = emptyStr := by
  refine ⟨?_, rfl, rfl, rfl, ?_⟩
  · show fileEntry c ∈ processPage pre page
    rw [processPage, List.mem_append]
    right
    rw [processContents, List.mem_filterMap]
    exact ⟨c, hc, by rw [if_neg hne]⟩
  · simp [fileEntry, hslash]

def w10content : S3Content :=
  { key := "a/b/".toList, size := 5, lastModified := 7,
    storageClass := emptyStr, etag := emptyStr }

def w10page : ProviderPage :=
  { contents := [w10content], commonPrefixes := [], isTruncated := false }

/-- Witness for C10 on a concrete nested folder-marker content object. -/
theorem listObjects_marker_as_file_witness :
    w10content ∈ w10page.contents ∧
    w10content.key ≠ ("a/".toList) ∧
    slash.isSuffixOf w10content.key = true ∧
    (fileEntry w10content ∈ (listObjectsResult ("a/".toList) [] 1000 w10page).objects ∧
     (fileEntry w10content).isFolder = false ∧
     (fileEntry w10content).type = typeFile ∧
     (fileEntry w10content).size = w10content.size ∧
     (fileEntry w10content).contentType = emptyStr) :=
  ⟨by decide, by decide, by decide,
   listObjects_marker_as_file ("a/".toList) [] 1000 w10page w10content
     (by decide) (by decide) (by decide)⟩

/-- The fuel of the chunking loop is irrelevant once it covers the list
length. -/
theorem chunksAux_fuel_irrelevant (fuel₁ : Nat) :
    ∀ (fuel₂ : Nat) (l : List Key), l.length ≤ fuel₁ → l.length ≤ fuel₂ →
      chunksAux fuel₁ l = chunksAux fuel₂ l := by
  induction fuel₁ with
  | zero =>
    intro fuel₂ l h1 _
    have hl : l = [] := List.eq_nil_of_length_eq_zero (Nat.le_zero.mp h1)
    subst hl
    cases fuel₂ <;> rfl
  | succ f ih =>
    intro fuel₂ l h1 h2
    cases l with
    | nil => cases fuel₂ <;> rfl
    | cons a l' =>
      cases fuel₂ with
      | zero => simp at h2
      | succ g =>
        unfold chunksAux
        congr 1
        apply ih
        · rw [List.length_drop]
          simp only [List.length_cons, batchSize] at *
          omega
        · rw [List.length_drop]
          simp only [List.length_cons, batchSize] at *
          omega

/-- Unfolding equation of the chunk list on a non-empty key list. -/
theorem deleteChunks_cons (l : List Key) (h : l ≠ []) :
    deleteChunks l = l.take batchSize :: deleteChunks (l.drop batchSize) := by
  cases l with
  | nil => exact absurd rfl h
  | cons a l' =>
    show chunksAux (a :: l').length (a :: l') = _
    rw [List.length_cons]
    unfold chunksAux
    congr 1
    apply chunksAux_fuel_irrelevant
    · rw [List.length_drop]
      simp only [List.length_cons, batchSize]
      omega
    · exact le_refl _

/-- The chunk list of a non-empty list is non-empty. -/
theorem chunksAux_ne_nil (fuel : Nat) (l : List Key) (hl : l ≠ []) (h : l.length ≤ fuel) :
    chunksAux fuel l ≠ [] := by
  cases l with
  | nil => exact absurd rfl hl
  | cons a l' =>
    cases fuel with
    | zero => simp at h
    | succ f => simp [chunksAux]

/-- Concatenating the chunks gives back the listed keys. -/
theorem chunksAux_flatten : ∀ (fuel : Nat) (l : List Key), l.length ≤ fuel →
    (chunksAux fuel l).flatten = l := by
  intro fuel
  induction fuel with
  | zero =>
    intro l h
    have hl : l = [] := List.eq_nil_of_length_eq_zero (Nat.le_zero.mp h)
    subst hl
    rfl
  | succ f ih =>
    intro l h
    cases l with
    | nil => rfl
    | cons a l' =>
      unfold chunksAux
      rw [List.flatten_cons]
      rw [ih _ (by rw [List.length_drop]; simp only [List.length_cons, batchSize] at *; omega)]
      exact List.take_append_drop batchSize (a :: l')

/-- The number of chunks is the length of the listed keys divided by 1000,
rounded up. -/
theorem chunksAux_length : ∀ (fuel : Nat) (l : List Key), l.length ≤ fuel →
    (chunksAux fuel l).length = (l.length + 999) / 1000 := by
  intro fuel
  induction fuel with
  | zero =>
    intro l h
    have hl : l = [] := List.eq_nil_of_length_eq_zero (Nat.le_zero.mp h)
    subst hl
    rfl
  | succ f ih =>
    intro l h
    cases l with
    | nil => rfl
    | cons a l' =>
      unfold chunksAux
      rw [List.length_cons, ih _ (by rw [List.length_drop]; simp only [List.length_cons, batchSize] at *; omega)]
      rw [List.length_drop]
      simp only [List.length_cons, batchSize]
      omega

/-- Every chunk holds at most 1000 keys and none is empty. -/
theorem chunksAux_sizes : ∀ (fuel : Nat) (l : List Key), l.length ≤ fuel →
    ∀ c ∈ chunksAux fuel l, c.length ≤ 1000 ∧ c ≠ [] := by
  intro fuel
  induction fuel with
  | zero =>
    intro l h c hc
    have hl : l = [] := List.eq_nil_of_length_eq_zero (Nat.le_zero.mp h)
    subst hl
    simp [chunksAux] at hc
  | succ f ih =>
    intro l h c hc
    cases l with
    | nil => simp [chunksAux] at hc
    | cons a l' =>
      unfold chunksAux at hc
      rcases List.mem_cons.mp hc with rfl | hc'
      · constructor
        · rw [List.length_take]
          simp [batchSize]
        · simp [List.take_eq_nil_iff, batchSize]
      · exact ih _ (by rw [List.length_drop]; simp only [List.length_cons, batchSize] at *; omega) c hc'

/-- Every chunk except possibly the last holds exactly 1000 keys. -/
theorem chunksAux_dropLast : ∀ (fuel : Nat) (l : List Key), l.length ≤ fuel →
    ∀ c ∈ (chunksAux fuel l).dropLast, c.length = 1000 := by
  intro fuel
  induction fuel with
  | zero =>
    intro l h c hc
    have hl : l = [] := List.eq_nil_of_length_eq_zero (Nat.le_zero.mp h)
    subst hl
    simp [chunksAux] at hc
  | succ f ih =>
    intro l h c hc
    cases l with
    | nil => simp [chunksAux] at hc
    | cons a l' =>
      unfold chunksAux at hc
      by_cases hd : (a :: l').drop batchSize = []
      · rw [hd] at hc
        have hz : chunksAux f ([] : List Key) = [] := by cases f <;> rfl
        rw [hz] at hc
        simp at hc
      · have hlen : ((a :: l').drop batchSize).length ≤ f := by
          rw [List.length_drop]
          simp only [List.length_cons, batchSize] at *
          omega
        have hne := chunksAux_ne_nil f _ hd hlen
        rw [List.dropLast_cons_of_ne_nil hne] at hc
        rcases List.mem_cons.mp hc with rfl | hc'
        · rw [List.length_take]
          have : 1000 < (a :: l').length := by
            by_contra hcon
            exact hd (List.drop_eq_nil_iff.mpr (by simp only [batchSize]; omega))
          simp only [batchSize]
          omega
        · exact ih _ hlen c hc'

/-- Properties of the chunk list of DeleteObjectsByPrefix. -/
theorem deleteChunks_spec (l : List Key) :
    (deleteChunks l).flatten = l ∧
    (deleteChunks l).length = (l.length + 999) / 1000 ∧
    (∀ c ∈ (deleteChunks l).dropLast, c.length = 1000) ∧
    (∀ c ∈ deleteChunks l, c.length ≤ 1000 ∧ c ≠ []) :=
  ⟨chunksAux_flatten l.length l (le_refl _), chunksAux_length l.length l (le_refl _),
   chunksAux_dropLast l.length l (le_refl _), chunksAux_sizes l.length l (le_refl _)⟩

/-- The delete loop on batches that all succeed: every batch is issued in
order and its keys are removed from the store. -/
theorem execBatches_all_ok (failOn : List Key → Option Nat) :
    ∀ (cs : List (List Key)) (store : List Key), (∀ c ∈ cs, failOn c = none) →
      execBatches failOn store cs =
        { store := cs.foldl removeKeys store, calls := cs, err := none } := by
  intro cs
  induction cs with
  | nil => intro store _; rfl
  | cons c cs ih =>
    intro store hok
    have hc : failOn c = none := hok c (List.mem_cons_self c cs)
    unfold execBatches
    rw [hc]
    simp only
    rw [ih (removeKeys store c) (fun b hb => hok b (List.mem_cons_of_mem c hb))]
    rfl

/-- The delete loop stops at the first failing batch, returning its error
with the store reflecting only the earlier batches. -/
theorem execBatches_first_fail (failOn : List Key → Option Nat) (c : List Key)
    (cs₂ : List (List Key)) (e : Nat) (hfail : failOn c = some e) :
    ∀ (cs₁ : List (List Key)) (store : List Key), (∀ b ∈ cs₁, failOn b = none) →
      execBatches failOn store (cs₁ ++ c :: cs₂) =
        { store := cs₁.foldl removeKeys store, calls := cs₁ ++ [c], err := some e } := by
  intro cs₁
  induction cs₁ with
  | nil =>
    intro store _
    rw [List.nil_append]
    unfold execBatches
    rw [hfail]
    rfl
  | cons b bs ih =>
    intro store hok
    have hb : failOn b = none := hok b (List.mem_cons_self b bs)
    rw [List.cons_append]
    unfold execBatches
    rw [hb]
    simp only
    rw [ih (removeKeys store b) (fun x hx => hok x (List.mem_cons_of_mem b hx))]
    rfl

/-- C3: DeleteObjectsByPrefix with no provider failures: an empty listing
issues no delete calls and succeeds; otherwise the listed keys are deleted in
exactly (n + 999) / 1000 batch calls, each holding at most 1000 keys and none
empty, every batch except possibly the last holding exactly 1000 keys, and
the concatenation of the batches being exactly the listed keys, so every
listed key is deleted in exactly one batch. -/
theorem deleteObjects_chunking (store : List Key) (pre : Key) :
    (deleteObjectsByPrefixRun (fun _ => none) store pre).err = none ∧
    (listedKeys store pre = [] →
      (deleteObjectsByPrefixRun (fun _ => none) store pre).calls = []) ∧
    (deleteObjectsByPrefixRun (fun _ => none) store pre).calls.length =
      ((listedKeys store pre).length + 999) / 1000 ∧
    ((deleteObjectsByPrefixRun (fun _ => none) store pre).calls).flatten =
      listedKeys store pre ∧
    (∀ c ∈ ((deleteObjectsByPrefixRun (fun _ => none) store pre).calls).dropLast,
      c.length = 1000) ∧
    (∀ c ∈ (deleteObjectsByPrefixRun (fun _ => none) store pre).calls,
      c.length ≤ 1000 ∧ c ≠ []) := by
  have hrun : deleteObjectsByPrefixRun (fun _ => none) store pre =
      { store := (deleteChunks (listedKeys store pre)).foldl removeKeys store,
        calls := deleteChunks (listedKeys store pre), err := none } := by
    unfold deleteObjectsByPrefixRun
    exact execBatches_all_ok _ _ store (fun _ _ => rfl)
  rw [hrun]
  obtain ⟨hflat, hlen, hlast, hsz⟩ := deleteChunks_spec (listedKeys store pre)
  refine ⟨rfl, ?_, hlen, hflat, hlast, hsz⟩
  intro h
  rw [h]
  rfl

/-- C4: when some delete batch fails, DeleteObjectsByPrefix returns the first
failing batch's error at once: the calls issued are exactly the earlier
successful batches followed by the failing one, no later batch is attempted,
and the deletions of the already successful batches remain applied to the
store. -/
theorem deleteObjects_first_error_aborts (failOn : List Key → Option Nat) (store : List Key)
    (pre : Key) (cs₁ : List (List Key)) (c : List Key) (cs₂ : List (List Key)) (e : Nat)
    (hsplit : deleteChunks (listedKeys store pre) = cs₁ ++ c :: cs₂)
    (hok : ∀ b ∈ cs₁, failOn b = none) (hfail : failOn c = some e) :
    (deleteObjectsByPrefixRun failOn store pre).err = some e ∧
    (deleteObjectsByPrefixRun failOn store pre).calls = cs₁ ++ [c] ∧
    (deleteObjectsByPrefixRun failOn store pre).store = cs₁.foldl removeKeys store := by
  have hrun : deleteObjectsByPrefixRun failOn store pre =
      { store := cs₁.foldl removeKeys store, calls := cs₁ ++ [c], err := some e } := by
    unfold deleteObjectsByPrefixRun
    rw [hsplit]
    exact execBatches_first_fail failOn c cs₂ e hfail cs₁ store hok
  rw [hrun]
  exact ⟨rfl, rfl, rfl⟩

def w4store : List Key := ["k".toList]

def w4fail : List Key → Option Nat := fun _ => some 7

/-- Witness for C4 with a single failing batch. -/
theorem deleteObjects_first_error_aborts_witness :
    deleteChunks (listedKeys w4store []) = [] ++ ["k".toList] :: [] ∧
    (∀ b ∈ ([] : List (List Key)), w4fail b = none) ∧
    w4fail (["k".toList]) = some 7 ∧
    ((deleteObjectsByPrefixRun w4fail w4store []).err = some 7 ∧
     (deleteObjectsByPrefixRun w4fail w4store []).calls = [] ++ [["k".toList]] ∧
     (deleteObjectsByPrefixRun w4fail w4store []).store =
       List.foldl removeKeys w4store []) := by
  refine ⟨by decide, fun b hb => absurd hb (List.not_mem_nil b), rfl, ?_⟩
  exact deleteObjects_first_error_aborts w4fail w4store [] [] (["k".toList]) [] 7
    (by decide) (fun b hb => absurd hb (List.not_mem_nil b)) rfl

end Explorer451
